import Mathlib

/-!
Verification development for the ark-liquid-poc repository.

The TypeScript source is shallowly embedded: buffers become lists of bytes
(natural numbers below 256), JS numbers become Int or Nat with explicit
wrap-around where the code relies on 32-bit semantics, fallible functions
return Except, and functions imported from external packages
(shared-utxo-covenant, tiny-secp256k1, liquidjs-lib taproot primitives)
become explicit parameters of the definitions that call them.

Sections:
  1. Script chunk model of liquidjs-lib script compile and decompile.
  2. The three leaf-script codecs of src/lib/script.ts.
  3. The bip68 encoder of src/lib/bip68.ts.
  4. SHA-256 and the forfeit message hash of src/lib/ark.ts.
  5. The transfer loop and output layout of createPoolTransaction.
  6. The PoolWatcher watchRedeem loop body.
  7. The PoolManager send state transition.
  8. The PoolManager vUtxo validation.
-/

namespace Spec2Proof

/-! ## 1. Script chunk model (liquidjs-lib bscript.compile / bscript.decompile)

A decompiled script is a list of chunks; a chunk is either an opcode or a
data push.  This mirrors the array of number-or-Buffer returned by
bscript.decompile, and bscript.compile maps such an array back to bytes,
canonicalising single-byte pushes to the corresponding small-integer
opcodes (asMinimalOP). -/

inductive Chunk where
  | op (n : Nat)
  | data (bs : List Nat)
deriving DecidableEq, Repr

/-- asMinimalOP from liquidjs-lib: an empty push is OP_0, a single byte 1..16
is OP_1..OP_16 (0x51..0x60), the single byte 0x81 is OP_1NEGATE (0x4f). -/
def asMinimalOP (bs : List Nat) : Option Nat :=
  match bs with
  | [] => some 0
  | [b] =>
    if 1 ≤ b ∧ b ≤ 16 then some (0x50 + b)
    else if b = 0x81 then some 0x4f
    else none
  | _ => none

/-- Push-data encoding for a buffer: length byte below OP_PUSHDATA1 (0x4c),
else OP_PUSHDATA1 / OP_PUSHDATA2 / OP_PUSHDATA4 with little-endian length. -/
def pushEncoding (bs : List Nat) : List Nat :=
  if bs.length < 0x4c then bs.length :: bs
  else if bs.length ≤ 0xff then 0x4c :: bs.length :: bs
  else if bs.length ≤ 0xffff then 0x4d :: bs.length % 256 :: bs.length / 256 :: bs
  else 0x4e :: bs.length % 256 :: bs.length / 256 % 256 :: bs.length / 65536 % 256 :: bs.length / 16777216 % 256 :: bs

def compileChunk : Chunk → List Nat
  | .op n => [n]
  | .data bs =>
    match asMinimalOP bs with
    | some o => [o]
    | none => pushEncoding bs

/-- bscript.compile on a chunk list. -/
def bscriptCompile (cs : List Chunk) : List Nat :=
  (cs.map compileChunk).flatten

/-- Number of length-header bytes following a push opcode. -/
def pushHeaderSize (b : Nat) : Nat :=
  if b < 0x4c then 0 else if b = 0x4c then 1 else if b = 0x4d then 2 else 4

/-- Parse the push length for a push opcode b in 0x01..0x4e, reading the
length header from the following bytes; none when the header is truncated. -/
def readPushLen (b : Nat) (rest : List Nat) : Option Nat :=
  if b < 0x4c then some b
  else if b = 0x4c then
    match rest with
    | l :: _ => some l
    | [] => none
  else if b = 0x4d then
    match rest with
    | l0 :: l1 :: _ => some (l0 + 256 * l1)
    | _ => none
  else
    match rest with
    | l0 :: l1 :: l2 :: l3 :: _ => some (l0 + 256 * l1 + 65536 * l2 + 16777216 * l3)
    | _ => none

/-- bscript.decompile: parse bytes into chunks, returning none when a push
header or push body is truncated.  Data pushes equal to a minimal-opcode
encoding are folded back to the opcode, as in liquidjs-lib. -/
def bscriptDecompile : List Nat → Option (List Chunk)
  | [] => some []
  | b :: rest =>
    if 0 < b ∧ b ≤ 0x4e then
      match readPushLen b rest with
      | none => none
      | some len =>
        let r := rest.drop (pushHeaderSize b)
        if len ≤ r.length then
          let d := r.take len
          let c := match asMinimalOP d with
            | some o => Chunk.op o
            | none => Chunk.data d
          match bscriptDecompile (r.drop len) with
          | some cs => some (c :: cs)
          | none => none
        else none
    else
      match bscriptDecompile rest with
      | some cs => some (Chunk.op b :: cs)
      | none => none
termination_by bs => bs.length
decreasing_by
  · simp only [List.length_drop, List.length_cons]
    omega
  · simp

/-- listStartsWith hay needle: needle is a byte-for-byte initial segment. -/
def listStartsWith : List Nat → List Nat → Bool
  | _, [] => true
  | [], _ :: _ => false
  | a :: as, b :: bs => a == b && listStartsWith as bs

/-- Buffer.includes for byte lists: the needle occurs contiguously in the hay. -/
def listContains : List Nat → List Nat → Bool
  | hay, needle =>
    if listStartsWith hay needle then true
    else match hay with
      | [] => false
      | _ :: t => listContains t needle

/-! ## 2. Leaf-script codecs (src/lib/script.ts)

Opcode values are those of liquidjs-lib's ops table (Elements tapscript):
OP_CHECKSEQUENCEVERIFY 0xb2, OP_DROP 0x75, OP_CHECKSIG 0xac,
OP_CHECKSIGVERIFY 0xad, OP_DUP 0x76, OP_SWAP 0x7c, OP_ROLL 0x7a,
OP_CAT 0x7e, OP_EQUAL 0x87, OP_EQUALVERIFY 0x88, OP_SHA256 0xa8,
OP_1 0x51, OP_2 0x52, OP_3 0x53, OP_0 0x00,
OP_CHECKSIGFROMSTACKVERIFY 0xc2, OP_INSPECTINPUTOUTPOINT 0xc7,
OP_INSPECTINPUTASSET 0xc8, OP_INSPECTINPUTVALUE 0xc9,
OP_PUSHCURRENTINPUTINDEX 0xcd, OP_INSPECTOUTPUTASSET 0xce,
OP_INSPECTOUTPUTVALUE 0xcf, OP_INSPECTOUTPUTSCRIPTPUBKEY 0xd1. -/

/-- The chunk comparison op === OPS.X used by the decompilers' findIndex. -/
def isOp (n : Nat) : Chunk → Bool
  | .op m => m == n
  | .data _ => false

/-- JS stack index access stack at i-1: for i = 0 this reads index -1 and
yields undefined, which every codec then rejects. -/
def stackBefore (stack : List Chunk) (i : Nat) : Option Chunk :=
  if i = 0 then none else stack.get? (i - 1)

/-- validBIP68 from script.ts calls decode from the npm bip68 package inside
try/catch.  That decode only applies bitwise operators to its argument and
never throws, for a Buffer argument included (the Buffer coerces to NaN and
every bitwise test yields 0), so the check accepts every buffer. -/
def validBIP68 (_bs : List Nat) : Bool := true

structure CSVScript where
  ownerPublicKey : List Nat
  timeoutBIP68 : List Nat
deriving DecidableEq, Repr

def csvChunks (owner timeout : List Nat) : List Chunk :=
  [.data timeout, .op 0xb2, .op 0x75, .data owner, .op 0xac]

/-- CheckSequenceVerifyScript.compile. -/
def csvCompile (owner timeout : List Nat) : List Nat :=
  bscriptCompile (csvChunks owner timeout)

/-- CheckSequenceVerifyScript.decompile. -/
def csvDecompile (buf : List Nat) : Except String CSVScript :=
  match bscriptDecompile buf with
  | none => .error "Invalid script: stack is empty"
  | some stack =>
    match stack.findIdx? (isOp 0xac) with
    | none => .error "Invalid script: OP_CHECKSIG expected"
    | some idChecksig =>
      match stackBefore stack idChecksig with
      | some (.data owner) =>
        if owner.length = 32 then
          match stack.findIdx? (isOp 0xb2) with
          | none => .error "Invalid script: OP_CHECKSEQUENCEVERIFY expected"
          | some idCheckseq =>
            match stackBefore stack idCheckseq with
            | some (.data timeout) =>
              if validBIP68 timeout then
                if listContains buf (csvCompile owner timeout) then
                  .ok ⟨owner, timeout⟩
                else .error "Invalid script"
              else .error "Invalid timeout"
            | _ => .error "Invalid timeout"
        else .error "Invalid owner public key"
      | _ => .error "Invalid owner public key"

structure FrozenReceiverS where
  ownerPublicKey : List Nat
  witnessProgram : List Nat
deriving DecidableEq, Repr

def frozenChunks (owner wp : List Nat) : List Chunk :=
  [.data owner, .op 0xad, .op 0x76, .op 0x76, .op 0xcd, .op 0xc8, .op 0x7e,
   .op 0x7c, .op 0xce, .op 0x7e, .op 0x88, .op 0xcd, .op 0xc9, .op 0x7e,
   .op 0x7c, .op 0xcf, .op 0x7e, .op 0x88, .op 0xd1, .op 0x51, .op 0x88,
   .data wp, .op 0x87]

/-- FrozenReceiverScript.compile. -/
def frozenCompile (owner wp : List Nat) : List Nat :=
  bscriptCompile (frozenChunks owner wp)

/-- FrozenReceiverScript.decompile. -/
def frozenDecompile (buf : List Nat) : Except String FrozenReceiverS :=
  match bscriptDecompile buf with
  | none => .error "Invalid script"
  | some stack =>
    match stack.findIdx? (isOp 0xad) with
    | none => .error "Invalid script"
    | some idChecksig =>
      match stackBefore stack idChecksig with
      | some (.data owner) =>
        if owner.length = 32 then
          match stack.findIdx? (isOp 0x87) with
          | none => .error "Invalid script"
          | some idEqual =>
            match stackBefore stack idEqual with
            | some (.data wp) =>
              if wp.length = 32 then
                if listContains buf (frozenCompile owner wp) then
                  .ok ⟨owner, wp⟩
                else .error "Invalid script"
              else .error "Invalid script"
            | _ => .error "Invalid script"
        else .error "Invalid script"
      | _ => .error "Invalid script"

structure ForfeitS where
  ownerPubKey : List Nat
  providerPubKey : List Nat
deriving DecidableEq, Repr

def forfeitChunks (owner provider : List Nat) : List Chunk :=
  [.op 0x76, .op 0x52, .op 0x7a, .op 0x7c, .op 0x7e, .op 0xa8, .op 0x76,
   .op 0x53, .op 0x7a, .op 0x7c, .data owner, .op 0xc2, .op 0x52, .op 0x7a,
   .op 0x7c, .data provider, .op 0xc2, .op 0x00, .op 0xc7, .op 0x75,
   .op 0x75, .op 0x87]

/-- ForfeitScript.compile. -/
def forfeitCompile (owner provider : List Nat) : List Nat :=
  bscriptCompile (forfeitChunks owner provider)

/-- ForfeitScript.decompile.  The second OP_CHECKSIGFROMSTACKVERIFY is
searched in stack.slice(first + 1) and the provider key read at the index
before it within that slice. -/
def forfeitDecompile (buf : List Nat) : Except String ForfeitS :=
  match bscriptDecompile buf with
  | none => .error "Invalid script"
  | some stack =>
    match stack.findIdx? (isOp 0xc2) with
    | none => .error "Invalid script"
    | some first =>
      match stackBefore stack first with
      | some (.data owner) =>
        if owner.length = 32 then
          match (stack.drop (first + 1)).findIdx? (isOp 0xc2) with
          | none => .error "Invalid script"
          | some second =>
            match stackBefore (stack.drop (first + 1)) second with
            | some (.data provider) =>
              if provider.length = 32 then
                if listContains buf (forfeitCompile owner provider) then
                  .ok ⟨owner, provider⟩
                else .error "Invalid script"
              else .error "Invalid script"
            | _ => .error "Invalid script"
        else .error "Invalid script"
      | _ => .error "Invalid script"

/-! ## 3. The bip68 encoder (src/lib/bip68.ts) -/

/-- JS ToInt32: wrap an integer into the signed 32-bit range.  The bitwise
operators of bip68() act on this conversion of their operand. -/
def toInt32 (s : Int) : Int :=
  let r := s.emod 4294967296
  if r < 2147483648 then r else r - 4294967296

/-- Little-endian value of a byte list. -/
def decodeLE : List Nat → Nat
  | [] => 0
  | b :: bs => b + 256 * decodeLE bs

/-- bip68 from src/lib/bip68.ts on integer inputs.  The source throws for
seconds above 0xFFFF * 512 = 33553920 and for seconds with a nonzero
truncated remainder mod 512 (the JS percent operator; every non-integer
input also throws there, so the Int domain is exhaustive for returns).
Otherwise it computes asNumber = 0x400000 OR (seconds >> 9), where the
shift acts on ToInt32(seconds): when the shifted value is negative,
asNumber is negative, asNumber.toString(16) starts with a minus sign and
Buffer.from(.., hex) stops at that invalid character, giving an empty
buffer; when it is non-negative, asNumber is in 0x400000..0x7fffff, its
six-digit hex string becomes three big-endian bytes, and the final
.reverse() makes the returned buffer little-endian. -/
def bip68Encode (seconds : Int) : Except String (List Nat) :=
  if 33553920 < seconds then .error "seconds too large, max is 33553920"
  else if seconds.tmod 512 ≠ 0 then .error "seconds must be a multiple of 512"
  else
    let v : Int := (toInt32 seconds).fdiv 512
    if v < 0 then .ok []
    else .ok [v.toNat % 256, v.toNat / 256 % 256, 0x40 + v.toNat / 65536]

/-! ## 4. SHA-256 and the forfeit message (src/lib/ark.ts)

crypto.sha256 of liquidjs-lib is the standard SHA-256 function; it is
implemented here in full so that hashForfeitMessage is executable. -/

def w32 (x : Nat) : Nat := x % 4294967296

def rotr32 (n x : Nat) : Nat := w32 (x / 2 ^ n + x % 2 ^ n * 2 ^ (32 - n))

def sha256BigSigma0 (x : Nat) : Nat := rotr32 2 x ^^^ rotr32 13 x ^^^ rotr32 22 x

def sha256BigSigma1 (x : Nat) : Nat := rotr32 6 x ^^^ rotr32 11 x ^^^ rotr32 25 x

def sha256SmallSigma0 (x : Nat) : Nat := rotr32 7 x ^^^ rotr32 18 x ^^^ x / 2 ^ 3

def sha256SmallSigma1 (x : Nat) : Nat := rotr32 17 x ^^^ rotr32 19 x ^^^ x / 2 ^ 10

def sha256Ch (x y z : Nat) : Nat := x &&& y ^^^ (x ^^^ 4294967295) &&& z

def sha256Maj (x y z : Nat) : Nat := x &&& y ^^^ x &&& z ^^^ y &&& z

def sha256K : Array Nat := #[
  1116352408, 1899447441, 3049323471, 3921009573, 961987163,
  1508970993, 2453635748, 2870763221, 3624381080, 310598401,
  607225278, 1426881987, 1925078388, 2162078206, 2614888103,
  3248222580, 3835390401, 4022224774, 264347078, 604807628,
  770255983, 1249150122, 1555081692, 1996064986, 2554220882,
  2821834349, 2952996808, 3210313671, 3336571891, 3584528711,
  113926993, 338241895, 666307205, 773529912, 1294757372,
  1396182291, 1695183700, 1986661051, 2177026350, 2456956037,
  2730485921, 2820302411, 3259730800, 3345764771, 3516065817,
  3600352804, 4094571909, 275423344, 430227734, 506948616,
  659060556, 883997877, 958139571, 1322822218, 1537002063,
  1747873779, 1955562222, 2024104815, 2227730452, 2361852424,
  2428436474, 2756734187, 3204031479, 3329325298]

def sha256InitState : List Nat :=
  [1779033703, 3144134277, 1013904242,
  2773480762, 1359893119, 2600822924,
  528734635, 1541459225]

def be64 (n : Nat) : List Nat :=
  [n / 2 ^ 56 % 256, n / 2 ^ 48 % 256, n / 2 ^ 40 % 256, n / 2 ^ 32 % 256,
   n / 2 ^ 24 % 256, n / 2 ^ 16 % 256, n / 2 ^ 8 % 256, n % 256]

def be32 (n : Nat) : List Nat :=
  [n / 16777216 % 256, n / 65536 % 256, n / 256 % 256, n % 256]

/-- Pad to a multiple of 64 bytes: 0x80, zero bytes, 64-bit big-endian bit
length. -/
def sha256Pad (msg : List Nat) : List Nat :=
  msg ++ 0x80 :: List.replicate ((119 - msg.length % 64) % 64) 0 ++ be64 (msg.length * 8)

/-- Big-endian 32-bit words of a byte list whose length is a multiple of 4. -/
def toWords32 : List Nat → List Nat
  | b0 :: b1 :: b2 :: b3 :: rest =>
    (b0 * 16777216 + b1 * 65536 + b2 * 256 + b3) :: toWords32 rest
  | _ => []

/-- Split a word list into blocks of 16. -/
def blocks16 : List Nat → List (List Nat)
  | [] => []
  | w :: rest => (w :: rest).take 16 :: blocks16 ((w :: rest).drop 16)
termination_by ws => ws.length
decreasing_by
  simp only [List.length_drop, List.length_cons]
  omega

/-- Message schedule: extend 16 words to 64. -/
def sha256Schedule (block : List Nat) : Array Nat :=
  (List.range 48).foldl (fun w i =>
      w.push (w32 (sha256SmallSigma1 (w.getD (i + 14) 0) + w.getD (i + 9) 0 +
        sha256SmallSigma0 (w.getD (i + 1) 0) + w.getD i 0)))
    block.toArray

def sha256Compress (hs : List Nat) (block : List Nat) : List Nat :=
  let w := sha256Schedule block
  let step := fun (st : Nat × Nat × Nat × Nat × Nat × Nat × Nat × Nat) (i : Nat) =>
    let (a, b, c, d, e, f, g, h) := st
    let t1 := w32 (h + sha256BigSigma1 e + sha256Ch e f g + sha256K.getD i 0 + w.getD i 0)
    let t2 := w32 (sha256BigSigma0 a + sha256Maj a b c)
    (w32 (t1 + t2), a, b, c, w32 (d + t1), e, f, g)
  let init := (hs.getD 0 0, hs.getD 1 0, hs.getD 2 0, hs.getD 3 0,
    hs.getD 4 0, hs.getD 5 0, hs.getD 6 0, hs.getD 7 0)
  let (a, b, c, d, e, f, g, h) := (List.range 64).foldl step init
  [w32 (hs.getD 0 0 + a), w32 (hs.getD 1 0 + b), w32 (hs.getD 2 0 + c),
   w32 (hs.getD 3 0 + d), w32 (hs.getD 4 0 + e), w32 (hs.getD 5 0 + f),
   w32 (hs.getD 6 0 + g), w32 (hs.getD 7 0 + h)]

def sha256 (msg : List Nat) : List Nat :=
  ((blocks16 (toWords32 (sha256Pad msg))).foldl sha256Compress sha256InitState).flatMap be32

/-- ForfeitMessage with its two txids as byte lists (the hex strings of the
source decoded). -/
structure ForfeitMessage where
  vUtxoTxID : List Nat
  vUtxoIndex : Nat
  promisedPoolTxID : List Nat
deriving DecidableEq, Repr

/-- Little-endian 4-byte encoding, the BufferWriter writeUInt32 layout. -/
def u32le (n : Nat) : List Nat :=
  [n % 256, n / 256 % 256, n / 65536 % 256, n / 16777216 % 256]

/-- The BufferWriter contents built by hashForfeitMessage: reversed vUtxo
txid, 4-byte little-endian index, reversed promised pool txid. -/
def serializeForfeitMessage (m : ForfeitMessage) : List Nat :=
  m.vUtxoTxID.reverse ++ u32le m.vUtxoIndex ++ m.promisedPoolTxID.reverse

/-- hashForfeitMessage from src/lib/ark.ts. -/
def hashForfeitMessage (m : ForfeitMessage) : List Nat :=
  sha256 (serializeForfeitMessage m)

/-! ## 5. createPoolTransaction (src/lib/ark.ts): transfer loop and layout

The pieces relevant to the claims are embedded: amounts are Int (JS
numbers), leaf construction by vUtxoRedeemPath is represented by the
x-only owner key that selects the leaf, and the external extractSharedUtxo
primitive of the shared-utxo-covenant package is a parameter. -/

def DUST : Nat := 400

def CHAIN_FEE : Nat := 500

structure TxOut where
  asset : Nat
  amount : Int
  script : List Nat
deriving DecidableEq, Repr

structure PoolTransfer where
  witnessValue : Int
  redeemLeafScript : List Nat
  toPublicKey : List Nat
  amount : Option Int
deriving DecidableEq, Repr

structure Stakeholder where
  amount : Int
  ownerKey : List Nat
deriving DecidableEq, Repr

/-- vUtxoAmount: the witness utxo value minus the embedded shared-utxo
change amount that extractSharedUtxo reads from the redeem leaf. -/
def vUtxoAmountM (extractChange : List Nat → Option Int) (t : PoolTransfer) : Int :=
  t.witnessValue - ((extractChange t.redeemLeafScript).getD 0)

/-- JS truthiness of transfer.amount: undefined and 0 are falsy. -/
def transferHasAmount (t : PoolTransfer) : Bool :=
  match t.amount with
  | some a => a != 0
  | none => false

/-- The per-transfer body of the createPoolTransaction loop: reject when the
declared amount exceeds the vUtxo value, emit the receiver stakeholder,
and synthesize the change stakeholder for the sender key recovered by
FrozenReceiverScript.decompile when a partial amount leaves a remainder. -/
def processTransfer (extractChange : List Nat → Option Int) (t : PoolTransfer) :
    Except String (List Stakeholder) :=
  let coinValue := vUtxoAmountM extractChange t
  let amt := t.amount.getD 0
  if transferHasAmount t ∧ coinValue < amt then
    .error "vUtxo amount too low to cover the send amount"
  else
    let first : Stakeholder :=
      ⟨if transferHasAmount t then amt else coinValue, t.toPublicKey.drop 1⟩
    if transferHasAmount t ∧ 0 < coinValue - amt then
      match frozenDecompile t.redeemLeafScript with
      | .error e => .error e
      | .ok fr => .ok [first, ⟨coinValue - amt, fr.ownerPublicKey⟩]
    else .ok [first]

structure PoolResult where
  outputs : List TxOut
  connectors : List Nat
  stakeHolders : List Stakeholder
deriving DecidableEq, Repr

/-- createPoolTransaction of src/lib/ark.ts: outputs are the shared covenant
output, the miner fee, one DUST connector per transfer paying the wallet
change script, and then the coin-selection change when present; the
connectors field lists the indexes 2..2+N-1. -/
def createPoolTransactionM (extractChange : List Nat → Option Int)
    (assetHash : Nat) (sharedOutputScript changeScript : List Nat)
    (coinSelectChange : Option TxOut) (minerFee : Int)
    (transfers : List PoolTransfer) : Except String PoolResult :=
  match transfers.mapM (processTransfer extractChange) with
  | .error e => .error e
  | .ok stakeholderLists =>
    let stakeHolders := stakeholderLists.flatten
    let totalAmount := (stakeHolders.map (·.amount)).sum
    let connector : TxOut := ⟨assetHash, (DUST : Int), changeScript⟩
    let connectorsOutputs := List.replicate transfers.length connector
    let baseOutputs := ⟨assetHash, totalAmount, sharedOutputScript⟩ ::
      ⟨assetHash, minerFee, []⟩ :: connectorsOutputs
    let connectorsIndexes := (List.range connectorsOutputs.length).map (· + 2)
    let outputs := match coinSelectChange with
      | some c => baseOutputs ++ [c]
      | none => baseOutputs
    .ok ⟨outputs, connectorsIndexes, stakeHolders⟩

/-! ## 6. PoolWatcher.watchRedeem loop body (src/lib/poolWatcher.ts) -/

def SIGHASH_ALL : Nat := 1

def SIGHASH_DEFAULT : Nat := 0

structure ForfeitTxInput where
  txid : List Nat
  txIndex : Nat
  witnessUtxo : TxOut
  sighashType : Nat
  tapLeaf : Option (List Nat)
deriving DecidableEq, Repr

structure ForfeitTxPlan where
  inputs : List ForfeitTxInput
  outputs : List TxOut
  updatedConnectors : List Nat
deriving DecidableEq, Repr

/-- One iteration of the unspents loop of _PoolWatcher.watchRedeem: fatal if
the promised pool has no connector left, else build the forfeit pset with
the connector at the head of the remaining list as input 0 (SIGHASH_ALL)
and the redeemed output with the forfeit leaf as input 1 (SIGHASH_DEFAULT),
a main output of connector value plus redeem value minus 500 to the wallet
change script, a 500 fee output, and pass connectors.slice(1) to
updateConnectors after broadcasting. -/
def watchRedeemStep (assetHash : Nat) (changeScript : List Nat)
    (poolOuts : List TxOut) (connectors : List Nat)
    (poolTxId redeemTxId : List Nat) (txPos : Nat) (redeemOutput : TxOut)
    (forfeitLeafScript : List Nat) : Except String ForfeitTxPlan :=
  if connectors.length = 0 then
    .error "unable to forfeit, no more connector in promised pool tx"
  else
    let cIdx := connectors.headD 0
    match poolOuts.get? cIdx with
    | none => .error "TypeError: connector index out of range of the pool outputs"
    | some connector =>
      .ok {
        inputs := [
          ⟨poolTxId, cIdx, connector, SIGHASH_ALL, none⟩,
          ⟨redeemTxId, txPos, redeemOutput, SIGHASH_DEFAULT, some forfeitLeafScript⟩],
        outputs := [
          ⟨assetHash, connector.amount + redeemOutput.amount - 500, changeScript⟩,
          ⟨assetHash, 500, []⟩],
        updatedConnectors := connectors.drop 1 }

/-! ## 7. PoolManager.send (src/lib/poolManager.ts, class _Implementation) -/

structure ToForfeitEntry where
  txID : List Nat
  txIndex : Nat
  ownerPublicKey : List Nat
deriving DecidableEq, Repr

structure SigEntry where
  redeemScriptPubKey : List Nat
  msg : ForfeitMessage
  signature : List Nat
deriving DecidableEq, Repr

structure PendingPool where
  psetId : Nat
  connectors : List Nat
  toForfeit : List ToForfeitEntry
  signatures : List SigEntry
deriving DecidableEq, Repr

/-- PoolManager state: the pending-pool map keyed by promised pool txid plus
the repository writes (setPoolTransaction and setForfeit calls) performed
so far. -/
structure ManagerState where
  pendingPool : List (List Nat × PendingPool)
  persistedPools : List (Nat × List Nat)
  persistedForfeits : List SigEntry
deriving DecidableEq, Repr

/-- The fate of the promise returned by one send() call. -/
inductive SendOutcome where
  | rejected (reason : String)
  | waiting
  | resolvedAll (hexId : Nat)
deriving DecidableEq, Repr

def lookupPool (pools : List (List Nat × PendingPool)) (key : List Nat) :
    Option PendingPool :=
  (pools.find? (fun p => p.1 == key)).map (·.2)

/-- PoolManager.send as a state transition.  verify is the external
verifySchnorr, redeemSpkOf maps the owner key to the redeem output script
hex computed by redeemPath, finalizeHex is the wallet sign, finalize and
extract pipeline on the pending pset.  The source calls reject() without
returning: after a failed lookup or entry search the following property
access throws before any mutation, but after a failed signature
verification every mutation still runs, so the invalid signature is
appended, the toForfeit entry is removed, and when it was the last entry
the pool is finalized and persisted with that invalid signature. -/
def managerSend (verify : List Nat → List Nat → List Nat → Bool)
    (redeemSpkOf : List Nat → List Nat) (finalizeHex : Nat → Nat)
    (st : ManagerState) (msg : ForfeitMessage) (signature : List Nat) :
    SendOutcome × ManagerState :=
  match lookupPool st.pendingPool msg.promisedPoolTxID with
  | none => (.rejected "pool tx not found", st)
  | some pool =>
    match pool.toForfeit.findIdx?
        (fun u => u.txIndex == msg.vUtxoIndex && u.txID == msg.vUtxoTxID) with
    | none => (.rejected "vUtxo not found in pending pool tx", st)
    | some vUtxoIndex =>
      let owner := (((pool.toForfeit.get? vUtxoIndex).map (·.ownerPublicKey)).getD [])
      let sigOk := verify (hashForfeitMessage msg) owner signature
      let entry : SigEntry := ⟨redeemSpkOf owner, msg, signature⟩
      let signatures := pool.signatures ++ [entry]
      let remaining := pool.toForfeit.eraseIdx vUtxoIndex
      if remaining.length > 0 then
        let st' := { st with pendingPool := st.pendingPool.map (fun p =>
          if p.1 = msg.promisedPoolTxID then
            (p.1, ⟨pool.psetId, pool.connectors, remaining, signatures⟩)
          else p) }
        (if sigOk then .waiting else .rejected "invalid signature", st')
      else
        let hex := finalizeHex pool.psetId
        let st' : ManagerState := {
          pendingPool := st.pendingPool.filter (fun p => p.1 ≠ msg.promisedPoolTxID),
          persistedPools := st.persistedPools ++ [(hex, pool.connectors)],
          persistedForfeits := st.persistedForfeits ++ signatures }
        (if sigOk then .resolvedAll hex else .rejected "invalid signature", st')

/-! ## 8. PoolManager vUtxo validation (class _Implementation, validate)

taprootWitnessProgram and computeMerkleRoot come from the external
shared-utxo-covenant package and bip341.tapLeafHash from liquidjs-lib;
they are parameters. -/

def X_H_POINT : List Nat :=
  [0x50, 0x92, 0x9b, 0x74, 0xc1, 0xa0, 0x49, 0x54, 0xb7, 0x8b, 0x4b, 0x60,
   0x35, 0xe9, 0x7a, 0x5e, 0x07, 0x8a, 0x5a, 0x0f, 0x28, 0xec, 0x96, 0xd5,
   0x47, 0xbf, 0xee, 0x9a, 0xce, 0x80, 0x3a, 0xc0]

structure TapLeafData where
  script : List Nat
  controlBlock : List Nat
deriving DecidableEq, Repr

structure VUtxoTreeData where
  claimLeaf : TapLeafData
  redeemLeaf : TapLeafData
deriving DecidableEq, Repr

structure RedeemTreeData where
  treeHash : List Nat
  claimLeaf : TapLeafData
  forfeitLeaf : TapLeafData
deriving DecidableEq, Repr

structure VirtualUtxoData where
  tapInternalKey : List Nat
  witnessScript : List Nat
deriving DecidableEq, Repr

structure ExtendedVirtualUtxoData where
  vUtxo : VirtualUtxoData
  vUtxoTree : VUtxoTreeData
  redeemTree : RedeemTreeData
deriving DecidableEq, Repr

/-- The private validate method of _Implementation, checking an
ExtendedVirtualUtxo before it is queued. -/
def validateVUtxo (twp : List Nat → List Nat → List Nat)
    (cmr : List Nat → List Nat → List Nat) (tlh : List Nat → List Nat)
    (aspPublicKey : List Nat) (e : ExtendedVirtualUtxoData) :
    Except String Unit :=
  if e.vUtxo.tapInternalKey ≠ X_H_POINT then .error "invalid tapInternalKey"
  else
    match csvDecompile e.vUtxoTree.claimLeaf.script with
    | .error err => .error err
    | .ok claimScript =>
      if claimScript.ownerPublicKey ≠ aspPublicKey.drop 1 then
        .error "invalid vUtxo claim leaf"
      else
        match csvDecompile e.redeemTree.claimLeaf.script with
        | .error err => .error err
        | .ok redeemClaim =>
          match forfeitDecompile e.redeemTree.forfeitLeaf.script with
          | .error err => .error err
          | .ok forfeit =>
            if forfeit.ownerPubKey ≠ redeemClaim.ownerPublicKey then
              .error "invalid redeem tree"
            else if forfeit.providerPubKey ≠ claimScript.ownerPublicKey then
              .error "invalid redeem tree"
            else
              let expectedWitness := twp X_H_POINT e.redeemTree.treeHash
              match frozenDecompile e.vUtxoTree.redeemLeaf.script with
              | .error err => .error err
              | .ok toRedeem =>
                if toRedeem.ownerPublicKey ≠ redeemClaim.ownerPublicKey then
                  .error "invalid redeem tree"
                else if toRedeem.witnessProgram ≠ expectedWitness then
                  .error "invalid redeem leaf"
                else
                  let root := cmr e.vUtxoTree.redeemLeaf.controlBlock
                    (tlh e.vUtxoTree.redeemLeaf.script)
                  let rootFromClaim := cmr e.vUtxoTree.claimLeaf.controlBlock
                    (tlh e.vUtxoTree.claimLeaf.script)
                  if root ≠ rootFromClaim then .error "invalid vUtxo tree"
                  else if e.vUtxo.witnessScript.drop 2 ≠ twp X_H_POINT root then
                    .error "invalid vUtxo scriptPubKey"
                  else .ok ()

/-! ## Helper lemmas -/

/-- A byte that is neither OP_0 nor in the push range parses as a plain
opcode chunk. -/
theorem bscriptDecompile_op (b : Nat) (hb : b = 0 ∨ 0x4e < b) (rest : List Nat) :
    bscriptDecompile (b :: rest) =
      (bscriptDecompile rest).map (fun cs => Chunk.op b :: cs) := by
  rw [bscriptDecompile]
  have hcond : ¬ (0 < b ∧ b ≤ 0x4e) := by omega
  rw [if_neg hcond]
  cases bscriptDecompile rest <;> simp

/-- A direct push (length below 0x4c) of a buffer that is not minimal-opcode
encodable parses back to the same data chunk. -/
theorem bscriptDecompile_push (bs rest : List Nat) (h0 : 0 < bs.length)
    (h1 : bs.length < 0x4c) (hm : asMinimalOP bs = none) :
    bscriptDecompile (bs.length :: (bs ++ rest)) =
      (bscriptDecompile rest).map (fun cs => Chunk.data bs :: cs) := by
  rw [bscriptDecompile]
  have hcond : 0 < bs.length ∧ bs.length ≤ 0x4e := by omega
  rw [if_pos hcond]
  have hread : readPushLen bs.length (bs ++ rest) = some bs.length := by
    unfold readPushLen
    rw [if_pos h1]
  rw [hread]
  have hdrop0 : (bs ++ rest).drop (pushHeaderSize bs.length) = bs ++ rest := by
    unfold pushHeaderSize
    rw [if_pos h1, List.drop_zero]
  simp only [hdrop0]
  have hle : bs.length ≤ (bs ++ rest).length := by
    simp only [List.length_append]; omega
  rw [if_pos hle]
  rw [List.take_left, List.drop_left]
  simp only [hm]
  cases bscriptDecompile rest <;> simp

/-- A 32-byte buffer has no minimal-opcode encoding. -/
theorem asMinimalOP_of_len32 (bs : List Nat) (h : bs.length = 32) :
    asMinimalOP bs = none := by
  match bs, h with
  | b0 :: b1 :: b2 :: rest, _ => rfl

/-- A 3-byte buffer has no minimal-opcode encoding. -/
theorem asMinimalOP_of_len3 (bs : List Nat) (h : bs.length = 3) :
    asMinimalOP bs = none := by
  match bs, h with
  | b0 :: b1 :: b2 :: rest, _ => rfl

theorem compileChunk_data (bs : List Nat) (h1 : bs.length < 0x4c)
    (hm : asMinimalOP bs = none) : compileChunk (Chunk.data bs) = bs.length :: bs := by
  simp [compileChunk, hm, pushEncoding, h1]


theorem listStartsWith_refl (l : List Nat) : listStartsWith l l = true := by
  induction l with
  | nil => rfl
  | cons a t ih => simp [listStartsWith, ih]

theorem listContains_self (l : List Nat) : listContains l l = true := by
  rw [listContains.eq_def]
  simp [listStartsWith_refl]


/-! Round-trip lemmas: decompiling a canonical compile, possibly followed by
extra bytes, recovers the canonical chunks followed by the parse of the
extra bytes. -/

theorem bscriptDecompile_csv_append (owner timeout suf : List Nat)
    (ho : owner.length = 32) (ht : timeout.length = 3) :
    bscriptDecompile (csvCompile owner timeout ++ suf) =
      (bscriptDecompile suf).map (fun cs => csvChunks owner timeout ++ cs) := by
  have hmo := asMinimalOP_of_len32 owner ho
  have hmt := asMinimalOP_of_len3 timeout ht
  have e : csvCompile owner timeout ++ suf =
      timeout.length :: (timeout ++ (0xb2 :: 0x75 :: (owner.length ::
        (owner ++ (0xac :: suf))))) := by
    simp [csvCompile, csvChunks, bscriptCompile, compileChunk, hmo, hmt,
      pushEncoding, ho, ht]
  rw [e]
  rw [bscriptDecompile_push _ _ (by omega) (by omega) hmt]
  rw [bscriptDecompile_op 0xb2 (by omega), bscriptDecompile_op 0x75 (by omega)]
  rw [bscriptDecompile_push _ _ (by omega) (by omega) hmo]
  rw [bscriptDecompile_op 0xac (by omega)]
  cases bscriptDecompile suf <;> simp [csvChunks]

theorem bscriptDecompile_csv (owner timeout : List Nat) (ho : owner.length = 32)
    (ht : timeout.length = 3) :
    bscriptDecompile (csvCompile owner timeout) = some (csvChunks owner timeout) := by
  have h := bscriptDecompile_csv_append owner timeout [] ho ht
  simpa [bscriptDecompile] using h

theorem csvDecompile_compile (owner timeout : List Nat) (ho : owner.length = 32)
    (ht : timeout.length = 3) :
    csvDecompile (csvCompile owner timeout) = .ok ⟨owner, timeout⟩ := by
  have hd := bscriptDecompile_csv owner timeout ho ht
  simp only [csvDecompile, hd, csvChunks]
  simp [isOp, stackBefore, List.findIdx?_cons, ho, validBIP68, listContains_self]

theorem bscriptDecompile_frozen_append (owner wp suf : List Nat)
    (ho : owner.length = 32) (hw : wp.length = 32) :
    bscriptDecompile (frozenCompile owner wp ++ suf) =
      (bscriptDecompile suf).map (fun cs => frozenChunks owner wp ++ cs) := by
  have hmo := asMinimalOP_of_len32 owner ho
  have hmw := asMinimalOP_of_len32 wp hw
  have e : frozenCompile owner wp ++ suf =
      owner.length :: (owner ++ (0xad :: 0x76 :: 0x76 :: 0xcd :: 0xc8 :: 0x7e ::
        0x7c :: 0xce :: 0x7e :: 0x88 :: 0xcd :: 0xc9 :: 0x7e :: 0x7c :: 0xcf ::
        0x7e :: 0x88 :: 0xd1 :: 0x51 :: 0x88 :: (wp.length ::
          (wp ++ (0x87 :: suf))))) := by
    simp [frozenCompile, frozenChunks, bscriptCompile, compileChunk, hmo, hmw,
      pushEncoding, ho, hw]
  rw [e]
  rw [bscriptDecompile_push _ _ (by omega) (by omega) hmo]
  rw [bscriptDecompile_op 0xad (by omega), bscriptDecompile_op 0x76 (by omega),
    bscriptDecompile_op 0x76 (by omega), bscriptDecompile_op 0xcd (by omega),
    bscriptDecompile_op 0xc8 (by omega), bscriptDecompile_op 0x7e (by omega),
    bscriptDecompile_op 0x7c (by omega), bscriptDecompile_op 0xce (by omega),
    bscriptDecompile_op 0x7e (by omega), bscriptDecompile_op 0x88 (by omega),
    bscriptDecompile_op 0xcd (by omega), bscriptDecompile_op 0xc9 (by omega),
    bscriptDecompile_op 0x7e (by omega), bscriptDecompile_op 0x7c (by omega),
    bscriptDecompile_op 0xcf (by omega), bscriptDecompile_op 0x7e (by omega),
    bscriptDecompile_op 0x88 (by omega), bscriptDecompile_op 0xd1 (by omega),
    bscriptDecompile_op 0x51 (by omega), bscriptDecompile_op 0x88 (by omega)]
  rw [bscriptDecompile_push _ _ (by omega) (by omega) hmw]
  rw [bscriptDecompile_op 0x87 (by omega)]
  cases bscriptDecompile suf <;> simp [frozenChunks]

theorem bscriptDecompile_frozen (owner wp : List Nat) (ho : owner.length = 32)
    (hw : wp.length = 32) :
    bscriptDecompile (frozenCompile owner wp) = some (frozenChunks owner wp) := by
  have h := bscriptDecompile_frozen_append owner wp [] ho hw
  simpa [bscriptDecompile] using h

theorem frozenDecompile_compile (owner wp : List Nat) (ho : owner.length = 32)
    (hw : wp.length = 32) :
    frozenDecompile (frozenCompile owner wp) = .ok ⟨owner, wp⟩ := by
  have hd := bscriptDecompile_frozen owner wp ho hw
  simp only [frozenDecompile, hd, frozenChunks]
  simp [isOp, stackBefore, List.findIdx?_cons, ho, hw, listContains_self]

theorem bscriptDecompile_forfeit_append (owner provider suf : List Nat)
    (ho : owner.length = 32) (hp : provider.length = 32) :
    bscriptDecompile (forfeitCompile owner provider ++ suf) =
      (bscriptDecompile suf).map (fun cs => forfeitChunks owner provider ++ cs) := by
  have hmo := asMinimalOP_of_len32 owner ho
  have hmp := asMinimalOP_of_len32 provider hp
  have e : forfeitCompile owner provider ++ suf =
      0x76 :: 0x52 :: 0x7a :: 0x7c :: 0x7e :: 0xa8 :: 0x76 :: 0x53 :: 0x7a ::
      0x7c :: (owner.length :: (owner ++ (0xc2 :: 0x52 :: 0x7a :: 0x7c ::
        (provider.length :: (provider ++ (0xc2 :: 0x00 :: 0xc7 :: 0x75 :: 0x75 ::
          0x87 :: suf)))))) := by
    simp [forfeitCompile, forfeitChunks, bscriptCompile, compileChunk, hmo, hmp,
      pushEncoding, ho, hp]
  rw [e]
  rw [bscriptDecompile_op 0x76 (by omega), bscriptDecompile_op 0x52 (by omega),
    bscriptDecompile_op 0x7a (by omega), bscriptDecompile_op 0x7c (by omega),
    bscriptDecompile_op 0x7e (by omega), bscriptDecompile_op 0xa8 (by omega),
    bscriptDecompile_op 0x76 (by omega), bscriptDecompile_op 0x53 (by omega),
    bscriptDecompile_op 0x7a (by omega), bscriptDecompile_op 0x7c (by omega)]
  rw [bscriptDecompile_push _ _ (by omega) (by omega) hmo]
  rw [bscriptDecompile_op 0xc2 (by omega), bscriptDecompile_op 0x52 (by omega),
    bscriptDecompile_op 0x7a (by omega), bscriptDecompile_op 0x7c (by omega)]
  rw [bscriptDecompile_push _ _ (by omega) (by omega) hmp]
  rw [bscriptDecompile_op 0xc2 (by omega), bscriptDecompile_op 0x00 (by omega),
    bscriptDecompile_op 0xc7 (by omega), bscriptDecompile_op 0x75 (by omega),
    bscriptDecompile_op 0x75 (by omega), bscriptDecompile_op 0x87 (by omega)]
  cases bscriptDecompile suf <;> simp [forfeitChunks]

theorem bscriptDecompile_forfeit (owner provider : List Nat) (ho : owner.length = 32)
    (hp : provider.length = 32) :
    bscriptDecompile (forfeitCompile owner provider) =
      some (forfeitChunks owner provider) := by
  have h := bscriptDecompile_forfeit_append owner provider [] ho hp
  simpa [bscriptDecompile] using h

theorem forfeitDecompile_compile (owner provider : List Nat) (ho : owner.length = 32)
    (hp : provider.length = 32) :
    forfeitDecompile (forfeitCompile owner provider) = .ok ⟨owner, provider⟩ := by
  have hd := bscriptDecompile_forfeit owner provider ho hp
  simp only [forfeitDecompile, hd, forfeitChunks]
  simp [isOp, stackBefore, List.findIdx?_cons, ho, hp, listContains_self]

/-! Leniency lemmas: decompiling a canonical compile with one trailing OP_NOP
byte still succeeds with the same fields. -/

theorem listStartsWith_append_self (l s : List Nat) :
    listStartsWith (l ++ s) l = true := by
  induction l with
  | nil => cases s <;> rfl
  | cons a t ih => simp [listStartsWith, ih]

theorem listContains_append_self (l s : List Nat) : listContains (l ++ s) l = true := by
  rw [listContains.eq_def]
  simp [listStartsWith_append_self]

theorem csvDecompile_compile_nop (owner timeout : List Nat) (ho : owner.length = 32)
    (ht : timeout.length = 3) :
    csvDecompile (csvCompile owner timeout ++ [0x61]) = .ok ⟨owner, timeout⟩ := by
  have hd := bscriptDecompile_csv_append owner timeout [0x61] ho ht
  rw [bscriptDecompile_op 0x61 (by omega)] at hd
  simp only [bscriptDecompile] at hd
  simp only [csvDecompile, hd, csvChunks]
  simp [isOp, stackBefore, List.findIdx?_cons, ho, validBIP68,
    listContains_append_self]

theorem frozenDecompile_compile_nop (owner wp : List Nat) (ho : owner.length = 32)
    (hw : wp.length = 32) :
    frozenDecompile (frozenCompile owner wp ++ [0x61]) = .ok ⟨owner, wp⟩ := by
  have hd := bscriptDecompile_frozen_append owner wp [0x61] ho hw
  rw [bscriptDecompile_op 0x61 (by omega)] at hd
  simp only [bscriptDecompile] at hd
  simp only [frozenDecompile, hd, frozenChunks]
  simp [isOp, stackBefore, List.findIdx?_cons, ho, hw, listContains_append_self]

theorem forfeitDecompile_compile_nop (owner provider : List Nat)
    (ho : owner.length = 32) (hp : provider.length = 32) :
    forfeitDecompile (forfeitCompile owner provider ++ [0x61]) =
      .ok ⟨owner, provider⟩ := by
  have hd := bscriptDecompile_forfeit_append owner provider [0x61] ho hp
  rw [bscriptDecompile_op 0x61 (by omega)] at hd
  simp only [bscriptDecompile] at hd
  simp only [forfeitDecompile, hd, forfeitChunks]
  simp [isOp, stackBefore, List.findIdx?_cons, ho, hp, listContains_append_self]

/-! Helper lemmas for the bip68 encoder. -/

theorem toInt32_of_nonneg (s : Int) (h0 : 0 ≤ s) (h1 : s < 2147483648) :
    toInt32 s = s := by
  unfold toInt32
  have he : s.emod 4294967296 = s := Int.emod_eq_of_lt h0 (by omega)
  simp only [he]
  rw [if_pos h1]

theorem bip68Encode_ok_nonneg (s : Int) (h0 : 0 ≤ s) (h1 : s ≤ 33553920)
    (h2 : s.tmod 512 = 0) :
    bip68Encode s = .ok [s.toNat / 512 % 256, s.toNat / 512 / 256 % 256, 0x40] := by
  unfold bip68Encode
  rw [if_neg (by omega), if_neg (by simp [h2])]
  have ht : toInt32 s = s := toInt32_of_nonneg s h0 (by omega)
  simp only [ht]
  rw [Int.fdiv_eq_ediv s (by omega)]
  have hv : (s / 512).toNat = s.toNat / 512 := by omega
  have hnn : ¬ (s / 512 < 0) := by omega
  have hb : s.toNat / 512 / 65536 = 0 := by omega
  rw [if_neg hnn, hv, hb]

theorem bip68Encode_ok_iff (s : Int) :
    (∃ bs, bip68Encode s = .ok bs) ↔ s ≤ 33553920 ∧ s.tmod 512 = 0 := by
  constructor
  · rintro ⟨bs, hbs⟩
    unfold bip68Encode at hbs
    by_cases hc1 : 33553920 < s
    · rw [if_pos hc1] at hbs
      exact absurd hbs (by simp)
    · rw [if_neg hc1] at hbs
      by_cases hc2 : s.tmod 512 = 0
      · exact ⟨by omega, hc2⟩
      · rw [if_pos hc2] at hbs
        exact absurd hbs (by simp)
  · rintro ⟨hle, hmod⟩
    unfold bip68Encode
    rw [if_neg (by omega), if_neg (by simp [hmod])]
    by_cases hv : (toInt32 s).fdiv 512 < 0
    · exact ⟨[], by rw [if_pos hv]⟩
    · exact ⟨_, by rw [if_neg hv]⟩

theorem bip68Encode_length3 (s : Int) (bs : List Nat) (h0 : 0 ≤ s)
    (h : bip68Encode s = .ok bs) : bs.length = 3 := by
  obtain ⟨hle, hmod⟩ := (bip68Encode_ok_iff s).mp ⟨bs, h⟩
  rw [bip68Encode_ok_nonneg s h0 hle hmod] at h
  cases h
  rfl

/-! Helper lemmas for the forfeit message serialization. -/

theorem u32le_inj (a b : Nat) (ha : a < 4294967296) (hb : b < 4294967296)
    (h : u32le a = u32le b) : a = b := by
  simp only [u32le, List.cons.injEq, and_true] at h
  omega

/-! ## Claim theorems -/

/-- C3 (amended): bip68 returns normally exactly when seconds is at most
0xFFFF * 512 = 33553920 and has zero JS remainder mod 512 (Int.tmod); on
success with NON-NEGATIVE seconds the low 16 bits of the little-endian
decoded sequence value equal seconds >> 9 = seconds / 512, and the
time-based type flag, bit 22, is set.  The non-negativity restriction is
forced by the counterexample at seconds = -512, which returns normally
but with an empty buffer.  Negative seconds in general obey no uniform
encoding law: the shift acts on ToInt32(seconds), so for example
1024 - 2^32 wraps to 1024 and returns the non-empty 1024-second
encoding. -/
theorem c3_bip68_domain_and_encoding (seconds : Int) :
    ((∃ bs, bip68Encode seconds = .ok bs) ↔
      seconds ≤ 33553920 ∧ seconds.tmod 512 = 0) ∧
    (0 ≤ seconds → ∀ bs, bip68Encode seconds = .ok bs →
      decodeLE bs % 65536 = seconds.toNat / 512 ∧
      decodeLE bs / 4194304 % 2 = 1) := by
  refine ⟨bip68Encode_ok_iff seconds, ?_⟩
  intro h0 bs hbs
  obtain ⟨hle, hmod⟩ := (bip68Encode_ok_iff seconds).mp ⟨bs, hbs⟩
  rw [bip68Encode_ok_nonneg seconds h0 hle hmod] at hbs
  cases hbs
  have hb : seconds.toNat / 512 < 65536 := by omega
  simp only [decodeLE]
  omega

theorem c3_witness :
    (∃ bs, bip68Encode 1024 = .ok bs) ∧
    (decodeLE [2, 0, 64] % 65536 = (1024 : Int).toNat / 512 ∧
      decodeLE [2, 0, 64] / 4194304 % 2 = 1) :=
  ⟨((c3_bip68_domain_and_encoding 1024).1).mpr (by decide),
   (c3_bip68_domain_and_encoding 1024).2 (by decide) [2, 0, 64] (by rfl)⟩

/-- C3 counterexample: seconds = -512 satisfies the claimed domain
condition and bip68 indeed returns normally, but the returned encoding is
the EMPTY buffer: its decoded value is 0, so the time-based type flag is
not set and its low 16 bits cannot equal (-512) >> 9 = -1.  This refutes
the on-success property as claimed for every number. -/
theorem c3_counterexample :
    bip68Encode (-512) = .ok [] ∧ decodeLE [] / 4194304 % 2 ≠ 1 :=
  ⟨by rfl, by decide⟩

/-- C4 (amended): for every valid input (non-negative multiple of 512 at
most 0xFFFF * 512) the returned buffer is a THREE byte little-endian
encoding of the sequence number 0x400000 + (seconds >> 9), time-based
flag set; the claimed four-byte length is refuted by the counterexample. -/
theorem c4_bip68_three_byte_le (seconds : Int) (h0 : 0 ≤ seconds)
    (h1 : seconds ≤ 33553920) (h2 : seconds.tmod 512 = 0) :
    ∃ bs, bip68Encode seconds = .ok bs ∧ bs.length = 3 ∧
      decodeLE bs = 4194304 + seconds.toNat / 512 := by
  refine ⟨_, bip68Encode_ok_nonneg seconds h0 h1 h2, by rfl, ?_⟩
  have hb : seconds.toNat / 512 < 65536 := by omega
  simp only [decodeLE]
  omega

theorem c4_witness :
    ∃ bs, bip68Encode 512 = .ok bs ∧ bs.length = 3 ∧
      decodeLE bs = 4194304 + (512 : Int).toNat / 512 :=
  c4_bip68_three_byte_le 512 (by decide) (by decide) (by decide)

/-- C4 counterexample: bip68 0 returns the buffer 00 00 40: three bytes,
not four. -/
theorem c4_counterexample :
    bip68Encode 0 = .ok [0, 0, 64] ∧ ¬ (([0, 0, 64] : List Nat).length = 4) :=
  ⟨by rfl, by decide⟩

/-- C9 (confirmed): compile then decompile then compile equals the original
bytes for all three codecs, for 32-byte keys and witness programs and a
timeout produced by bip68 on a valid non-negative number of seconds (such
a timeout is a 3-byte buffer); decompile in fact recovers the exact
fields. -/
theorem c9_compile_decompile_compile (k t w p q : List Nat) (sec : Int)
    (hk : k.length = 32) (hw : w.length = 32) (hp : p.length = 32)
    (hq : q.length = 32) (hsec : 0 ≤ sec) (ht : bip68Encode sec = .ok t) :
    (csvDecompile (csvCompile k t)).map
        (fun d => csvCompile d.ownerPublicKey d.timeoutBIP68) =
      .ok (csvCompile k t) ∧
    (frozenDecompile (frozenCompile k w)).map
        (fun d => frozenCompile d.ownerPublicKey d.witnessProgram) =
      .ok (frozenCompile k w) ∧
    (forfeitDecompile (forfeitCompile p q)).map
        (fun d => forfeitCompile d.ownerPubKey d.providerPubKey) =
      .ok (forfeitCompile p q) := by
  have ht3 : t.length = 3 := bip68Encode_length3 sec t hsec ht
  refine ⟨?_, ?_, ?_⟩
  · rw [csvDecompile_compile k t hk ht3]; rfl
  · rw [frozenDecompile_compile k w hk hw]; rfl
  · rw [forfeitDecompile_compile p q hp hq]; rfl

theorem c9_witness :
    (csvDecompile (csvCompile (List.replicate 32 2) [1, 0, 64])).map
        (fun d => csvCompile d.ownerPublicKey d.timeoutBIP68) =
      .ok (csvCompile (List.replicate 32 2) [1, 0, 64]) ∧
    (frozenDecompile (frozenCompile (List.replicate 32 2) (List.replicate 32 3))).map
        (fun d => frozenCompile d.ownerPublicKey d.witnessProgram) =
      .ok (frozenCompile (List.replicate 32 2) (List.replicate 32 3)) ∧
    (forfeitDecompile (forfeitCompile (List.replicate 32 4) (List.replicate 32 5))).map
        (fun d => forfeitCompile d.ownerPubKey d.providerPubKey) =
      .ok (forfeitCompile (List.replicate 32 4) (List.replicate 32 5)) :=
  c9_compile_decompile_compile _ _ _ _ _ 512 (by decide) (by decide) (by decide)
    (by decide) (by decide) (by rfl)

/-- C5 (amended): each codec's decompile succeeds on the exact canonical
compiled sequence, but decompilation is NOT strict: the canonical sequence
followed by a trailing OP_NOP byte is also accepted with the same decoded
fields, because decompile locates marker opcodes with findIndex and then
only checks that the canonical compile is CONTAINED in the input
(Buffer.includes), not equal to it. -/
theorem c5_decompile_not_strict (k t w p q : List Nat) (sec : Int)
    (hk : k.length = 32) (hw : w.length = 32) (hp : p.length = 32)
    (hq : q.length = 32) (hsec : 0 ≤ sec) (ht : bip68Encode sec = .ok t) :
    (csvDecompile (csvCompile k t) = .ok ⟨k, t⟩ ∧
      csvDecompile (csvCompile k t ++ [0x61]) = .ok ⟨k, t⟩) ∧
    (frozenDecompile (frozenCompile k w) = .ok ⟨k, w⟩ ∧
      frozenDecompile (frozenCompile k w ++ [0x61]) = .ok ⟨k, w⟩) ∧
    (forfeitDecompile (forfeitCompile p q) = .ok ⟨p, q⟩ ∧
      forfeitDecompile (forfeitCompile p q ++ [0x61]) = .ok ⟨p, q⟩) := by
  have ht3 : t.length = 3 := bip68Encode_length3 sec t hsec ht
  exact ⟨⟨csvDecompile_compile k t hk ht3, csvDecompile_compile_nop k t hk ht3⟩,
    ⟨frozenDecompile_compile k w hk hw, frozenDecompile_compile_nop k w hk hw⟩,
    ⟨forfeitDecompile_compile p q hp hq, forfeitDecompile_compile_nop p q hp hq⟩⟩

theorem c5_witness :
    (csvDecompile (csvCompile (List.replicate 32 6) [1, 0, 64]) =
        .ok ⟨List.replicate 32 6, [1, 0, 64]⟩ ∧
      csvDecompile (csvCompile (List.replicate 32 6) [1, 0, 64] ++ [0x61]) =
        .ok ⟨List.replicate 32 6, [1, 0, 64]⟩) ∧
    (frozenDecompile (frozenCompile (List.replicate 32 6) (List.replicate 32 7)) =
        .ok ⟨List.replicate 32 6, List.replicate 32 7⟩ ∧
      frozenDecompile (frozenCompile (List.replicate 32 6) (List.replicate 32 7) ++ [0x61]) =
        .ok ⟨List.replicate 32 6, List.replicate 32 7⟩) ∧
    (forfeitDecompile (forfeitCompile (List.replicate 32 8) (List.replicate 32 9)) =
        .ok ⟨List.replicate 32 8, List.replicate 32 9⟩ ∧
      forfeitDecompile (forfeitCompile (List.replicate 32 8) (List.replicate 32 9) ++ [0x61]) =
        .ok ⟨List.replicate 32 8, List.replicate 32 9⟩) :=
  c5_decompile_not_strict _ _ _ _ _ 512 (by decide) (by decide) (by decide)
    (by decide) (by decide) (by rfl)

/-- C5 counterexample: the canonical CSV compile for a concrete key and
timeout with one trailing OP_NOP byte appended is NOT the canonical
compiled sequence of the decoded fields, yet decompile accepts it,
refuting the claimed rejection of any byte-level deviation. -/
theorem c5_counterexample :
    csvDecompile (csvCompile (List.replicate 32 2) [1, 0, 64] ++ [0x61]) =
      .ok ⟨List.replicate 32 2, [1, 0, 64]⟩ ∧
    csvCompile (List.replicate 32 2) [1, 0, 64] ++ [0x61] ≠
      csvCompile (List.replicate 32 2) [1, 0, 64] :=
  ⟨csvDecompile_compile_nop _ _ (by decide) (by decide), by decide⟩

/-- C2 (confirmed): hashForfeitMessage is SHA256 of the reversed vUtxo
txid, the 4-byte little-endian index and the reversed promised pool txid;
and the serialization is injective on messages with 32-byte txids and
32-bit indexes, so two distinct messages have distinct pre-image buffers
(hence distinct digests up to SHA-256 collisions). -/
theorem c2_hash_forfeit_message (m1 m2 : ForfeitMessage)
    (h1a : m1.vUtxoTxID.length = 32) (h1b : m1.promisedPoolTxID.length = 32)
    (h1c : m1.vUtxoIndex < 4294967296)
    (h2a : m2.vUtxoTxID.length = 32) (h2b : m2.promisedPoolTxID.length = 32)
    (h2c : m2.vUtxoIndex < 4294967296) :
    hashForfeitMessage m1 =
      sha256 (m1.vUtxoTxID.reverse ++ u32le m1.vUtxoIndex ++
        m1.promisedPoolTxID.reverse) ∧
    (m1 ≠ m2 → serializeForfeitMessage m1 ≠ serializeForfeitMessage m2) := by
  refine ⟨rfl, ?_⟩
  intro hne hser
  apply hne
  unfold serializeForfeitMessage at hser
  obtain ⟨e12, e4⟩ := List.append_inj hser (by simp [h1a, h2a, u32le])
  obtain ⟨e1, e3⟩ := List.append_inj e12 (by simp [h1a, h2a])
  have t1 : m1.vUtxoTxID = m2.vUtxoTxID := by
    have h := congrArg List.reverse e1
    simpa using h
  have t3 : m1.promisedPoolTxID = m2.promisedPoolTxID := by
    have h := congrArg List.reverse e4
    simpa using h
  have t2 := u32le_inj _ _ h1c h2c e3
  cases m1
  cases m2
  simp_all

theorem c2_witness :
    (hashForfeitMessage ⟨List.replicate 32 0, 1, List.replicate 32 1⟩ =
      sha256 ((List.replicate 32 0).reverse ++ u32le 1 ++
        (List.replicate 32 1).reverse)) ∧
    serializeForfeitMessage ⟨List.replicate 32 0, 1, List.replicate 32 1⟩ ≠
      serializeForfeitMessage ⟨List.replicate 32 0, 2, List.replicate 32 1⟩ := by
  have h := c2_hash_forfeit_message ⟨List.replicate 32 0, 1, List.replicate 32 1⟩
    ⟨List.replicate 32 0, 2, List.replicate 32 1⟩ (by decide) (by decide)
    (by decide) (by decide) (by decide) (by decide)
  exact ⟨h.1, h.2 (by decide)⟩

/-- In a replicate list every index below the length reads the element. -/
theorem getElem?_replicate_lt {α : Type} (n i : Nat) (a : α) (h : i < n) :
    (List.replicate n a)[i]? = some a := by
  simp [List.getElem?_replicate, h]

/-- C6 (confirmed): in every pool built by createPoolTransaction from N
transfers, output 0 is the shared covenant output carrying the stakeholder
sum, output 1 the miner fee, outputs 2..2+N-1 are exactly N connector
outputs of value DUST = 400 paying the wallet change script, the
coin-selection change (when present) comes right after them, and the
connectors field is the index list 2..2+N-1. -/
theorem c6_pool_layout (extractChange : List Nat → Option Int) (assetHash : Nat)
    (sharedOutputScript changeScript : List Nat) (coinSelectChange : Option TxOut)
    (minerFee : Int) (transfers : List PoolTransfer) (res : PoolResult)
    (h : createPoolTransactionM extractChange assetHash sharedOutputScript
      changeScript coinSelectChange minerFee transfers = .ok res) :
    res.outputs[0]? =
      some ⟨assetHash, (res.stakeHolders.map (fun s => s.amount)).sum,
        sharedOutputScript⟩ ∧
    res.outputs[1]? = some ⟨assetHash, minerFee, []⟩ ∧
    (∀ i, i < transfers.length →
      res.outputs[2 + i]? = some ⟨assetHash, (DUST : Int), changeScript⟩) ∧
    (∀ c, coinSelectChange = some c →
      res.outputs[2 + transfers.length]? = some c) ∧
    res.connectors = (List.range transfers.length).map (fun i => i + 2) := by
  unfold createPoolTransactionM at h
  cases hm : transfers.mapM (processTransfer extractChange) with
  | error e =>
    rw [hm] at h
    exact absurd h (by simp)
  | ok ls =>
    rw [hm] at h
    simp only [Except.ok.injEq] at h
    subst h
    cases hcs : coinSelectChange with
    | none =>
      simp only [hcs]
      refine ⟨by simp, by simp, ?_, ?_, by simp⟩
      · intro i hi
        have h2i : 2 + i = i + 1 + 1 := by omega
        rw [h2i]
        simp only [List.getElem?_cons_succ]
        exact getElem?_replicate_lt _ _ _ hi
      · intro c hc
        simp at hc
    | some c0 =>
      simp only [hcs]
      refine ⟨by simp, by simp, ?_, ?_, by simp⟩
      · intro i hi
        have h2i : 2 + i = i + 1 + 1 := by omega
        rw [h2i]
        simp only [List.cons_append, List.getElem?_cons_succ]
        rw [List.getElem?_append]
        rw [if_pos (by simp [hi])]
        exact getElem?_replicate_lt _ _ _ hi
      · intro c hc
        simp only [Option.some.injEq] at hc
        subst hc
        have h2n : 2 + transfers.length = transfers.length + 1 + 1 := by omega
        rw [h2n]
        simp only [List.cons_append, List.getElem?_cons_succ]
        rw [List.getElem?_append_right (by simp)]
        simp

theorem c6_witness :
    ((⟨[⟨1, 100, [8]⟩, ⟨1, 500, []⟩, ⟨1, 400, [9]⟩, ⟨1, 5, [7]⟩], [2],
        [⟨100, [4]⟩]⟩ : PoolResult)).outputs[1]? = some ⟨1, 500, []⟩ ∧
    ((⟨[⟨1, 100, [8]⟩, ⟨1, 500, []⟩, ⟨1, 400, [9]⟩, ⟨1, 5, [7]⟩], [2],
        [⟨100, [4]⟩]⟩ : PoolResult)).outputs[2 + 0]? = some ⟨1, 400, [9]⟩ ∧
    ((⟨[⟨1, 100, [8]⟩, ⟨1, 500, []⟩, ⟨1, 400, [9]⟩, ⟨1, 5, [7]⟩], [2],
        [⟨100, [4]⟩]⟩ : PoolResult)).outputs[2 + 1]? = some ⟨1, 5, [7]⟩ ∧
    ((⟨[⟨1, 100, [8]⟩, ⟨1, 500, []⟩, ⟨1, 400, [9]⟩, ⟨1, 5, [7]⟩], [2],
        [⟨100, [4]⟩]⟩ : PoolResult)).connectors =
      (List.range 1).map (fun i => i + 2) := by
  have h := c6_pool_layout (fun _ => none) 1 [8] [9] (some ⟨1, 5, [7]⟩) 500
    [⟨100, [], [3, 4], none⟩]
    ⟨[⟨1, 100, [8]⟩, ⟨1, 500, []⟩, ⟨1, 400, [9]⟩, ⟨1, 5, [7]⟩], [2], [⟨100, [4]⟩]⟩
    (by rfl)
  exact ⟨h.2.1, h.2.2.1 0 (by decide), h.2.2.2.1 ⟨1, 5, [7]⟩ rfl, h.2.2.2.2⟩

/-- C7 (amended): for a transfer with a PROVIDED and NONZERO amount: the
builder throws when the amount exceeds the vUtxo value, and when the
amount is strictly below it and the sender redeem leaf decompiles as a
FrozenReceiver, a change stakeholder keyed by that leaf's owner key
carries exactly the remainder.  The nonzero condition is forced: a
provided amount of 0 is falsy in JS and synthesizes no change stakeholder
(see the counterexample). -/
theorem c7_transfer_change (extractChange : List Nat → Option Int)
    (t : PoolTransfer) (a : Int) (ha : t.amount = some a) (ha0 : a ≠ 0) :
    (vUtxoAmountM extractChange t < a →
      processTransfer extractChange t =
        .error "vUtxo amount too low to cover the send amount") ∧
    (∀ fr, frozenDecompile t.redeemLeafScript = .ok fr →
      a < vUtxoAmountM extractChange t →
      processTransfer extractChange t =
        .ok [⟨a, t.toPublicKey.drop 1⟩,
             ⟨vUtxoAmountM extractChange t - a, fr.ownerPublicKey⟩]) := by
  have htruthy : transferHasAmount t = true := by
    simp [transferHasAmount, ha, ha0]
  have hamt : t.amount.getD 0 = a := by rw [ha]; rfl
  constructor
  · intro hlt
    unfold processTransfer
    rw [hamt, if_pos ⟨htruthy, hlt⟩]
  · intro fr hfr hgt
    unfold processTransfer
    rw [hamt, if_neg (by rw [htruthy]; simp; omega)]
    rw [if_pos ⟨htruthy, by omega⟩]
    rw [hfr, htruthy]
    simp

/-- C7 counterexample: a transfer with provided amount 0 on a vUtxo of
value 5 produces a single stakeholder carrying the full value and NO
change stakeholder, although 0 is provided and strictly below the value;
the source treats amount 0 as absent through JS truthiness. -/
theorem c7_counterexample :
    processTransfer (fun _ => none) ⟨5, [], [3, 4], some 0⟩ =
      .ok [⟨5, [4]⟩] := by rfl

theorem c7_witness :
    processTransfer (fun _ => none)
      ⟨100, frozenCompile (List.replicate 32 6) (List.replicate 32 7),
        [3, 4], some 40⟩ =
      .ok [⟨40, [4]⟩, ⟨60, List.replicate 32 6⟩] := by
  have hfr : frozenDecompile
      (frozenCompile (List.replicate 32 6) (List.replicate 32 7)) =
      .ok ⟨List.replicate 32 6, List.replicate 32 7⟩ :=
    frozenDecompile_compile _ _ (by decide) (by decide)
  have h := (c7_transfer_change (fun _ => none)
    ⟨100, frozenCompile (List.replicate 32 6) (List.replicate 32 7),
      [3, 4], some 40⟩ 40 rfl (by decide)).2
    ⟨List.replicate 32 6, List.replicate 32 7⟩ hfr (by decide)
  simpa using h

/-- C8 (confirmed): watchRedeem on an unspent redeem output throws the
fatal no-connector error when the promised pool's remaining connector list
is empty; otherwise it builds a forfeit transaction whose input 0 is the
connector at index 0 of the remaining list at SIGHASH_ALL and whose
input 1 is the redeemed output with the forfeit leaf at SIGHASH_DEFAULT,
with a main output of connector value plus redeemed value minus 500 to the
wallet change script and a 500 fee output, and passes connectors.slice(1)
to updateConnectors after broadcasting. -/
theorem c8_watch_redeem_step (assetHash : Nat) (changeScript : List Nat)
    (poolOuts : List TxOut) (connectors : List Nat)
    (poolTxId redeemTxId : List Nat) (txPos : Nat) (redeemOutput : TxOut)
    (leafScript : List Nat) :
    (connectors = [] →
      watchRedeemStep assetHash changeScript poolOuts connectors poolTxId
        redeemTxId txPos redeemOutput leafScript =
        .error "unable to forfeit, no more connector in promised pool tx") ∧
    (∀ c0 rest conn, connectors = c0 :: rest → poolOuts[c0]? = some conn →
      watchRedeemStep assetHash changeScript poolOuts connectors poolTxId
        redeemTxId txPos redeemOutput leafScript =
        .ok ⟨[⟨poolTxId, c0, conn, SIGHASH_ALL, none⟩,
              ⟨redeemTxId, txPos, redeemOutput, SIGHASH_DEFAULT, some leafScript⟩],
             [⟨assetHash, conn.amount + redeemOutput.amount - 500, changeScript⟩,
              ⟨assetHash, 500, []⟩],
             rest⟩) := by
  constructor
  · intro hc
    subst hc
    rfl
  · intro c0 rest conn hc hg
    subst hc
    unfold watchRedeemStep
    rw [if_neg (by simp)]
    simp [List.get?_eq_getElem?, hg]

theorem c8_witness :
    (watchRedeemStep 1 [9] [⟨1, 0, []⟩, ⟨1, 0, []⟩, ⟨1, 400, [9]⟩] [] [7] [8] 0
      ⟨1, 1000, [5]⟩ [6] =
      .error "unable to forfeit, no more connector in promised pool tx") ∧
    (watchRedeemStep 1 [9] [⟨1, 0, []⟩, ⟨1, 0, []⟩, ⟨1, 400, [9]⟩] [2, 3] [7] [8] 0
      ⟨1, 1000, [5]⟩ [6] =
      .ok ⟨[⟨[7], 2, ⟨1, 400, [9]⟩, SIGHASH_ALL, none⟩,
            ⟨[8], 0, ⟨1, 1000, [5]⟩, SIGHASH_DEFAULT, some [6]⟩],
           [⟨1, 900, [9]⟩, ⟨1, 500, []⟩],
           [3]⟩) := by
  constructor
  · exact (c8_watch_redeem_step 1 [9] [⟨1, 0, []⟩, ⟨1, 0, []⟩, ⟨1, 400, [9]⟩] []
      [7] [8] 0 ⟨1, 1000, [5]⟩ [6]).1 rfl
  · have h := (c8_watch_redeem_step 1 [9] [⟨1, 0, []⟩, ⟨1, 0, []⟩, ⟨1, 400, [9]⟩]
      [2, 3] [7] [8] 0 ⟨1, 1000, [5]⟩ [6]).2 2 [3] ⟨1, 400, [9]⟩ rfl (by simp)
    simpa using h

/-- C10 (confirmed): validate never compares the BIP-68 timeout values of
the CSV leaves against the protocol constants: for ARBITRARY 3-byte
timeout buffers tClaim and tRedeem (in particular values different from
the 30-day and 15-day constants, and with the redeem timeout not smaller
than the claim timeout), every consistently assembled ExtendedVirtualUtxo
is accepted.  The consistency hypotheses constrain keys, scripts, control
blocks and witness programs through the external taproot functions, never
the timeout bytes. -/
theorem c10_validate_ignores_timeouts
    (twp cmr : List Nat → List Nat → List Nat) (tlh : List Nat → List Nat)
    (asp owner tClaim tRedeem cbC cbR treeHash : List Nat)
    (hasp : (asp.drop 1).length = 32) (howner : owner.length = 32)
    (htc : tClaim.length = 3) (htr : tRedeem.length = 3)
    (htwp : (twp X_H_POINT treeHash).length = 32)
    (hroot : cmr cbR (tlh (frozenCompile owner (twp X_H_POINT treeHash))) =
      cmr cbC (tlh (csvCompile (asp.drop 1) tClaim))) :
    validateVUtxo twp cmr tlh asp
      ⟨⟨X_H_POINT,
        [0x51, 0x20] ++
          twp X_H_POINT
            (cmr cbR (tlh (frozenCompile owner (twp X_H_POINT treeHash))))⟩,
       ⟨⟨csvCompile (asp.drop 1) tClaim, cbC⟩,
        ⟨frozenCompile owner (twp X_H_POINT treeHash), cbR⟩⟩,
       ⟨treeHash, ⟨csvCompile owner tRedeem, []⟩,
        ⟨forfeitCompile owner (asp.drop 1), []⟩⟩⟩ = .ok () := by
  unfold validateVUtxo
  rw [if_neg (by simp)]
  simp only
  rw [csvDecompile_compile _ _ hasp htc]
  simp only
  rw [if_neg (by simp)]
  rw [csvDecompile_compile _ _ howner htr]
  simp only
  rw [forfeitDecompile_compile _ _ howner hasp]
  simp only
  rw [if_neg (by simp), if_neg (by simp)]
  rw [frozenDecompile_compile _ _ howner htwp]
  simp only
  rw [if_neg (by simp), if_neg (by simp)]
  rw [if_neg (by simp [hroot])]
  rw [if_neg (by simp)]

theorem c10_witness :
    validateVUtxo (fun _ _ => List.replicate 32 0) (fun _ _ => []) (fun _ => [])
      (List.replicate 33 8)
      ⟨⟨X_H_POINT, [0x51, 0x20] ++ List.replicate 32 0⟩,
       ⟨⟨csvCompile ((List.replicate 33 8).drop 1) [1, 0, 64], []⟩,
        ⟨frozenCompile (List.replicate 32 9) (List.replicate 32 0), []⟩⟩,
       ⟨[], ⟨csvCompile (List.replicate 32 9) [2, 0, 64], []⟩,
        ⟨forfeitCompile (List.replicate 32 9) ((List.replicate 33 8).drop 1),
          []⟩⟩⟩ = .ok () ∧
    decodeLE [2, 0, 64] > decodeLE [1, 0, 64] ∧
    ([1, 0, 64] : List Nat) ≠ [2, 0, 64] := by
  refine ⟨?_, by decide, by decide⟩
  exact c10_validate_ignores_timeouts (fun _ _ => List.replicate 32 0)
    (fun _ _ => []) (fun _ => []) (List.replicate 33 8) (List.replicate 32 9)
    [1, 0, 64] [2, 0, 64] [] [] [] (by decide) (by decide) (by decide)
    (by decide) (by decide) rfl

/-- C1 (code bug): a send() whose Schnorr signature fails verification
rejects only that caller, as claimed, but it does NOT leave the pending
pool untouched: the matching toForfeit entry is removed and the invalid
signature is appended to the stored signatures, because the source calls
reject() without returning.  In the evaluation below the pool starts with
two toForfeit entries; the first send uses a verifier that rejects the
signature, is itself rejected, and still mutates the pool; the second send
for the same entry uses a verifier that accepts the signature and is
nevertheless rejected with the not-found error, refuting the claimed
subsequent success of a correct send. -/
theorem c1_send_invalid_signature_mutates_state :
    managerSend (fun _ _ _ => false) (fun k => k) (fun p => p)
      ⟨[([10], ⟨0, [2, 3], [⟨[1], 0, [5]⟩, ⟨[2], 1, [6]⟩], []⟩)], [], []⟩
      ⟨[1], 0, [10]⟩ [1] =
      (.rejected "invalid signature",
       ⟨[([10], ⟨0, [2, 3], [⟨[2], 1, [6]⟩],
          [⟨[5], ⟨[1], 0, [10]⟩, [1]⟩]⟩)], [], []⟩) ∧
    (⟨[([10], ⟨0, [2, 3], [⟨[2], 1, [6]⟩],
        [⟨[5], ⟨[1], 0, [10]⟩, [1]⟩]⟩)], [], []⟩ : ManagerState) ≠
      ⟨[([10], ⟨0, [2, 3], [⟨[1], 0, [5]⟩, ⟨[2], 1, [6]⟩], []⟩)], [], []⟩ ∧
    managerSend (fun _ _ _ => true) (fun k => k) (fun p => p)
      ⟨[([10], ⟨0, [2, 3], [⟨[2], 1, [6]⟩],
        [⟨[5], ⟨[1], 0, [10]⟩, [1]⟩]⟩)], [], []⟩
      ⟨[1], 0, [10]⟩ [2] =
      (.rejected "vUtxo not found in pending pool tx",
       ⟨[([10], ⟨0, [2, 3], [⟨[2], 1, [6]⟩],
          [⟨[5], ⟨[1], 0, [10]⟩, [1]⟩]⟩)], [], []⟩) := by
  refine ⟨by rfl, by decide, by rfl⟩

end Spec2Proof
